import Mathlib

/-!
Shallow embedding of the repository's data-loading code: the custom dataset
class `CustomImageDatset` (a manifest-backed labeled sample store built on a
CSV reader and an image decoder), the one-hot label transform built from
`torch.zeros` and `scatter_`, and the batch iterator (`DataLoader`) contract.

External library primitives (pandas `read_csv` and `iloc`, torchvision
`read_image`, `os.path.join`) are modelled as explicit functions over an
abstract filesystem mapping paths to file contents, following the error
taxonomy of the design: manifest parse failures surface at construction,
missing files and invalid indices surface at item access.
-/

/-- Error taxonomy of the dataset design. -/
inductive DatasetError where
  | manifestReadError
  | sampleNotFoundError
  | indexOutOfRangeError
deriving DecidableEq

/-- Content of a file on disk: a decodable image, a parseable CSV manifest
holding its rows of (filename, label), or malformed content that neither the
CSV reader nor the image decoder can process. -/
inductive FileData (Image Label : Type) where
  | image (img : Image)
  | manifest (rows : List (String × Label))
  | malformed

/-- A filesystem maps a path to the file stored there, when one exists. -/
def FS (Image Label : Type) : Type :=
  String → Option (FileData Image Label)

/-- Writes file data at a path of a filesystem, leaving other paths alone. -/
def updateFS {Image Label : Type} (fs : FS Image Label) (p : String)
    (d : FileData Image Label) : FS Image Label :=
  fun q => if q = p then some d else fs q

/-- Models os.path.join for a directory with no trailing separator and a
relative filename — the only shape the dataset class produces: the separator
is inserted between the two parts. -/
def os_path_join (dir fname : String) : String :=
  dir ++ "/" ++ fname

/-- Models pandas integer-location row indexing (`DataFrame.iloc`): a negative
index counts from the end of the frame, and an index out of range on either
side yields none (the caller surfaces it as an IndexOutOfRangeError). -/
def iloc {α : Type} (rows : List α) (idx : Int) : Option α :=
  let j : Int := if idx < 0 then (rows.length : Int) + idx else idx
  if 0 ≤ j then rows[j.toNat]? else none

/-- Models pandas `read_csv`: returns the manifest's rows when the file at the
path is a parseable manifest, and fails with ManifestReadError when the file
is missing, unreadable or malformed. -/
def read_csv {Image Label : Type} (fs : FS Image Label) (path : String) :
    Except DatasetError (List (String × Label)) :=
  match fs path with
  | some (FileData.manifest rows) => Except.ok rows
  | _ => Except.error DatasetError.manifestReadError

/-- Models torchvision `read_image`: decodes the file at the path into a raw
numeric array, failing with SampleNotFoundError when the file does not exist
(a file with no decodable image content also surfaces an error). -/
def read_image {Image Label : Type} (fs : FS Image Label) (path : String) :
    Except DatasetError Image :=
  match fs path with
  | some (FileData.image img) => Except.ok img
  | _ => Except.error DatasetError.sampleNotFoundError

/-- The custom dataset class of the source (its misspelling preserved): the
manifest loaded fully into memory at construction, the image directory path,
and the two optional transforms, exactly the attributes set by `__init__`. -/
structure CustomImageDatset (Image Label : Type) where
  image_labels : List (String × Label)
  img_dir : String
  transform : Option (Image → Image)
  target_transform : Option (Label → Label)

/-- Embeds `CustomImageDatset.__init__`: parses the manifest with read_csv
(propagating its failure) and stores the image directory and the two optional
transforms; no image file is touched at construction. -/
def CustomImageDatset.construct {Image Label : Type} (fs : FS Image Label)
    (annotation_file : String) (image_dir : String)
    (transform : Option (Image → Image))
    (target_transform : Option (Label → Label)) :
    Except DatasetError (CustomImageDatset Image Label) :=
  match read_csv fs annotation_file with
  | Except.error e => Except.error e
  | Except.ok rows => Except.ok ⟨rows, image_dir, transform, target_transform⟩

/-- Embeds `CustomImageDatset.__len__`: the number of rows of the manifest. -/
def CustomImageDatset.len {Image Label : Type}
    (s : CustomImageDatset Image Label) : Nat :=
  s.image_labels.length

/-- Embeds `CustomImageDatset.__getitem__`: looks up manifest row `idx` with
iloc, joins the image directory with the row's filename, decodes that file
with read_image, reads the label from the same row, and applies each optional
transform exactly when it is configured. -/
def CustomImageDatset.getItem {Image Label : Type}
    (s : CustomImageDatset Image Label) (fs : FS Image Label) (idx : Int) :
    Except DatasetError (Image × Label) :=
  match iloc s.image_labels idx with
  | none => Except.error DatasetError.indexOutOfRangeError
  | some row =>
    match read_image fs (os_path_join s.img_dir row.1) with
    | Except.error e => Except.error e
    | Except.ok image =>
      let image := match s.transform with | some t => t image | none => image
      let label := match s.target_transform with | some t => t row.2 | none => row.2
      Except.ok (image, label)

/-- A call against the store: a `__len__` call, or a `__getitem__` call with
the filesystem as it stands at call time. -/
inductive DatasetCall (Image Label : Type) where
  | lengthCall
  | getItemCall (fs : FS Image Label) (idx : Int)

/-- Embeds a `__len__` call as its result paired with the object state
afterwards: the method reads `len(self.image_labels)` and assigns nothing. -/
def CustomImageDatset.lenStep {Image Label : Type}
    (s : CustomImageDatset Image Label) :
    Nat × CustomImageDatset Image Label :=
  (s.len, s)

/-- Embeds a `__getitem__` call as its result paired with the object state
afterwards: the method reads attributes and the disk and assigns nothing. -/
def CustomImageDatset.getItemStep {Image Label : Type}
    (s : CustomImageDatset Image Label) (fs : FS Image Label) (idx : Int) :
    Except DatasetError (Image × Label) × CustomImageDatset Image Label :=
  (s.getItem fs idx, s)

/-- Runs a sequence of calls against the store, threading the object state. -/
def runCalls {Image Label : Type} (s : CustomImageDatset Image Label) :
    List (DatasetCall Image Label) → CustomImageDatset Image Label
  | [] => s
  | DatasetCall.lengthCall :: rest => runCalls s.lenStep.2 rest
  | DatasetCall.getItemCall fs idx :: rest => runCalls (s.getItemStep fs idx).2 rest

/-- Applies an optional transform the way `__getitem__` does: when a transform
is configured it replaces the value by the transform's result, otherwise the
raw value is kept. -/
def applyOpt {A : Type} (t : Option (A → A)) (x : A) : A :=
  match t with
  | some T => T x
  | none => x

/-- Modelled from the spec: the Batch Iterator (`torch.utils.data.DataLoader`)
is framework code not present in the repository, which only constructs it from
a dataset, a batch size and a shuffle flag. -/
structure DataLoader (Image Label : Type) where
  dataset : CustomImageDatset Image Label
  batch_size : Nat
  shuffle : Bool

/-- Fuel-driven worker for chunks: peels off the next batch of size b while
fuel lasts; the fuel only bounds the recursion depth and never runs out when
it starts at the list's length and b is positive. -/
def chunksGo {α : Type} (b : Nat) : Nat → List α → List (List α)
  | _, [] => []
  | 0, _ :: _ => []
  | fuel + 1, x :: xs => (x :: xs).take b :: chunksGo b fuel ((x :: xs).drop b)

/-- Modelled from the spec: cuts a list into consecutive batches of size b,
the last batch possibly smaller. -/
def chunks {α : Type} (b : Nat) (l : List α) : List (List α) :=
  chunksGo b l.length l

/-- Modelled from the spec: the index batches of one epoch of the Batch
Iterator — the epoch's index order (a fresh permutation of the indices when
shuffle is set, ascending order otherwise) cut into batches of batch_size. -/
def DataLoader.epochIndexBatches {Image Label : Type}
    (dl : DataLoader Image Label) (perm : List Nat) : List (List Nat) :=
  chunks dl.batch_size (if dl.shuffle then perm else List.range dl.dataset.len)

/-- Models `torch.zeros(n, dtype=torch.float)` as a rational vector; every
value arising in the one-hot transform (zero and one) is exact in floating
point, so rationals embed the float arithmetic faithfully here. -/
def torch_zeros (n : Nat) : List ℚ :=
  List.replicate n 0

/-- Models `Tensor.scatter_` along dim 0 with a scalar index on a 1-D tensor:
writes value at position index (defined here for indices within range, the
only ones the notebook's transform uses on labels 0 through 9). -/
def scatter_ (t : List ℚ) (index : Nat) (value : ℚ) : List ℚ :=
  t.set index value

/-- Embeds the notebook's one-hot label transform:
`torch.zeros(10, dtype=torch.float).scatter_(dim=0, index=torch.tensor(y), value=1)`. -/
def target_transform (y : Nat) : List ℚ :=
  scatter_ (torch_zeros 10) y 1

theorem iloc_natCast {α : Type} (rows : List α) (i : Nat) :
    iloc rows (i : Int) = rows[i]? := by
  unfold iloc
  have h1 : ¬ ((i : Int) < 0) := by omega
  have h2 : (0 : Int) ≤ (i : Int) := by omega
  simp only [h1, if_false, h2, if_true, Int.toNat_natCast]

theorem iloc_none_of_invalid {α : Type} (rows : List α) (i : Int)
    (h : (rows.length : Int) ≤ i ∨ i < -(rows.length : Int)) :
    iloc rows i = none := by
  unfold iloc
  rcases h with h | h
  · have hi : ¬ i < 0 := by omega
    have h0 : (0 : Int) ≤ i := by omega
    simp only [hi, if_false, h0, if_true]
    apply List.getElem?_eq_none
    omega
  · have hi : i < 0 := by omega
    simp only [hi, if_true]
    rw [if_neg]
    omega

theorem iloc_neg_eq {α : Type} (rows : List α) (k : Nat)
    (h1 : 1 ≤ k) (h2 : k ≤ rows.length) :
    iloc rows (-(k : Int)) = rows[rows.length - k]? := by
  unfold iloc
  have hneg : -(k : Int) < 0 := by omega
  have hj : (0 : Int) ≤ (rows.length : Int) + -(k : Int) := by omega
  simp only [hneg, if_true, hj]
  congr 1
  omega

theorem read_image_error_eq {Image Label : Type} (fs : FS Image Label)
    (p : String) (e : DatasetError)
    (h : read_image fs p = Except.error e) :
    e = DatasetError.sampleNotFoundError := by
  unfold read_image at h
  rcases hfs : fs p with _ | d
  · rw [hfs] at h
    injection h with h
    exact h.symm
  · cases d with
    | image img => rw [hfs] at h; cases h
    | manifest rows => rw [hfs] at h; injection h with h; exact h.symm
    | malformed => rw [hfs] at h; injection h with h; exact h.symm

/-- C4: on a store of length n, a GetItem call with an invalid index — one at
or beyond the row count, in particular index n itself, or one below the lowest
index pandas iloc accepts — fails with IndexOutOfRangeError instead of
returning a sample. -/
theorem getItem_invalid_index_error {Image Label : Type}
    (s : CustomImageDatset Image Label) (fs : FS Image Label) (i : Int)
    (h : (s.len : Int) ≤ i ∨ i < -(s.len : Int)) :
    s.getItem fs i = Except.error DatasetError.indexOutOfRangeError := by
  have h' : (s.image_labels.length : Int) ≤ i ∨ i < -(s.image_labels.length : Int) := h
  unfold CustomImageDatset.getItem
  rw [iloc_none_of_invalid s.image_labels i h']

theorem getItem_invalid_index_error_witness :
    (((CustomImageDatset.mk (List.replicate 10 ("a", 0)) "d" none none :
        CustomImageDatset Nat Nat).len : Int) ≤ 10) ∧
      (CustomImageDatset.mk (List.replicate 10 ("a", 0)) "d" none none :
        CustomImageDatset Nat Nat).getItem (fun _ => none) 10 =
        Except.error DatasetError.indexOutOfRangeError :=
  ⟨by decide,
   getItem_invalid_index_error
     (CustomImageDatset.mk (List.replicate 10 ("a", 0)) "d" none none)
     (fun _ => none) 10 (Or.inl (by decide))⟩

/-- C10: on a non-empty store of length n, GetItem accepts a negative index
-k for 1 ≤ k ≤ n: the call behaves exactly as GetItem(n - k) — counting from
the end of the manifest — and never fails with IndexOutOfRangeError, even
though the documented precondition requires 0 ≤ index < Length(). -/
theorem getItem_negative_index_from_end {Image Label : Type}
    (s : CustomImageDatset Image Label) (fs : FS Image Label) (k : Nat)
    (h1 : 1 ≤ k) (h2 : k ≤ s.len) :
    s.getItem fs (-(k : Int)) = s.getItem fs ((s.len - k : Nat) : Int) ∧
      s.getItem fs (-(k : Int)) ≠ Except.error DatasetError.indexOutOfRangeError := by
  have h2' : k ≤ s.image_labels.length := h2
  have hlt : s.image_labels.length - k < s.image_labels.length := by omega
  have hiloc : iloc s.image_labels (-(k : Int)) =
      s.image_labels[s.image_labels.length - k]? :=
    iloc_neg_eq _ k h1 h2'
  have hiloc2 : iloc s.image_labels ((s.len - k : Nat) : Int) =
      s.image_labels[s.image_labels.length - k]? :=
    iloc_natCast _ _
  have hrow : s.image_labels[s.image_labels.length - k]? =
      some (s.image_labels[s.image_labels.length - k]) :=
    List.getElem?_eq_getElem hlt
  constructor
  · unfold CustomImageDatset.getItem
    rw [hiloc, hiloc2]
  · unfold CustomImageDatset.getItem
    simp only [hiloc, hrow]
    rcases hread : read_image fs
        (os_path_join s.img_dir (s.image_labels[s.image_labels.length - k]).1)
      with e | img
    · have he := read_image_error_eq _ _ _ hread
      subst he
      simp only [hread]
      simp
    · simp only [hread]
      simp

theorem getItem_negative_index_from_end_witness :
    1 ≤ 1 ∧
    1 ≤ (CustomImageDatset.mk [("a", 1), ("b", 2), ("c", 3)] "d" none none :
          CustomImageDatset Nat Nat).len ∧
    ((CustomImageDatset.mk [("a", 1), ("b", 2), ("c", 3)] "d" none none :
        CustomImageDatset Nat Nat).getItem
        (fun p => if p = "d/c" then some (FileData.image 7) else none) (-(1 : Int)) =
      (CustomImageDatset.mk [("a", 1), ("b", 2), ("c", 3)] "d" none none :
        CustomImageDatset Nat Nat).getItem
        (fun p => if p = "d/c" then some (FileData.image 7) else none)
        (((CustomImageDatset.mk [("a", 1), ("b", 2), ("c", 3)] "d" none none :
            CustomImageDatset Nat Nat).len - 1 : Nat) : Int) ∧
      (CustomImageDatset.mk [("a", 1), ("b", 2), ("c", 3)] "d" none none :
        CustomImageDatset Nat Nat).getItem
        (fun p => if p = "d/c" then some (FileData.image 7) else none) (-(1 : Int)) ≠
        Except.error DatasetError.indexOutOfRangeError) :=
  ⟨Nat.le_refl 1, by decide,
   getItem_negative_index_from_end
     (CustomImageDatset.mk [("a", 1), ("b", 2), ("c", 3)] "d" none none)
     (fun p => if p = "d/c" then some (FileData.image 7) else none) 1
     (Nat.le_refl 1) (by decide)⟩

theorem construct_ok {Image Label : Type} (fs : FS Image Label) (p dir : String)
    (t : Option (Image → Image)) (tt : Option (Label → Label))
    (rows : List (String × Label)) (hman : fs p = some (FileData.manifest rows)) :
    CustomImageDatset.construct fs p dir t tt = Except.ok ⟨rows, dir, t, tt⟩ := by
  unfold CustomImageDatset.construct read_csv
  rw [hman]

theorem construct_ok_inv {Image Label : Type} {fs : FS Image Label}
    {p dir : String} {t : Option (Image → Image)} {tt : Option (Label → Label)}
    {s : CustomImageDatset Image Label}
    (hcon : CustomImageDatset.construct fs p dir t tt = Except.ok s) :
    ∃ rows, fs p = some (FileData.manifest rows) ∧ s = ⟨rows, dir, t, tt⟩ := by
  unfold CustomImageDatset.construct read_csv at hcon
  rcases hfs : fs p with _ | d
  · rw [hfs] at hcon
    cases hcon
  · cases d with
    | image img => rw [hfs] at hcon; cases hcon
    | manifest rows =>
      rw [hfs] at hcon
      injection hcon with h
      exact ⟨rows, rfl, h.symm⟩
    | malformed => rw [hfs] at hcon; cases hcon

theorem runCalls_eq_self {Image Label : Type} (s : CustomImageDatset Image Label) :
    ∀ calls : List (DatasetCall Image Label), runCalls s calls = s
  | [] => rfl
  | DatasetCall.lengthCall :: rest => runCalls_eq_self s rest
  | DatasetCall.getItemCall _ _ :: rest => runCalls_eq_self s rest

theorem getItem_ok_label {Image Label : Type} (s : CustomImageDatset Image Label)
    (fs : FS Image Label) (i : Nat) (h : i < s.image_labels.length)
    (x : Image) (y : Label)
    (hget : s.getItem fs (i : Int) = Except.ok (x, y)) :
    y = applyOpt s.target_transform ((s.image_labels[i]).2) := by
  unfold CustomImageDatset.getItem at hget
  rw [iloc_natCast, List.getElem?_eq_getElem h] at hget
  rcases hread : read_image fs (os_path_join s.img_dir (s.image_labels[i]).1)
    with e | img
  · simp only [hread] at hget
    exact Except.noConfusion hget
  · simp only [hread, Except.ok.injEq, Prod.mk.injEq] at hget
    exact hget.2.symm

theorem getItem_ok_spec {Image Label : Type} (s : CustomImageDatset Image Label)
    (fs : FS Image Label) (i : Nat) (h : i < s.image_labels.length) (img : Image)
    (hread : read_image fs (os_path_join s.img_dir (s.image_labels[i]).1) =
      Except.ok img) :
    s.getItem fs (i : Int) = Except.ok
      (applyOpt s.transform img,
       applyOpt s.target_transform ((s.image_labels[i]).2)) := by
  unfold CustomImageDatset.getItem
  rw [iloc_natCast, List.getElem?_eq_getElem h]
  simp only [hread]
  rfl

/-- C1: on a store constructed from a manifest, a successful GetItem at a valid
index i returns a label equal to the manifest row i's label, with the
configured label transform applied to it exactly when one was passed at
construction. -/
theorem getItem_label_matches_manifest {Image Label : Type} (fs : FS Image Label)
    (p dir : String) (t : Option (Image → Image)) (tt : Option (Label → Label))
    (rows : List (String × Label)) (s : CustomImageDatset Image Label)
    (hman : fs p = some (FileData.manifest rows))
    (hcon : CustomImageDatset.construct fs p dir t tt = Except.ok s)
    (i : Nat) (h : i < rows.length) (x : Image) (y : Label)
    (hget : s.getItem fs (i : Int) = Except.ok (x, y)) :
    y = applyOpt tt ((rows[i]).2) := by
  rw [construct_ok fs p dir t tt rows hman] at hcon
  injection hcon with hs
  subst hs
  exact getItem_ok_label ⟨rows, dir, t, tt⟩ fs i h x y hget

/-- C2: on a store constructed from a manifest, Length() returns exactly the
manifest's row count, and the value is unchanged by any subsequent sequence of
Length and GetItem calls on the store. -/
theorem len_eq_manifest_row_count {Image Label : Type} (fs : FS Image Label)
    (p dir : String) (t : Option (Image → Image)) (tt : Option (Label → Label))
    (rows : List (String × Label)) (s : CustomImageDatset Image Label)
    (hman : fs p = some (FileData.manifest rows))
    (hcon : CustomImageDatset.construct fs p dir t tt = Except.ok s) :
    s.len = rows.length ∧
      ∀ calls : List (DatasetCall Image Label),
        (runCalls s calls).len = rows.length := by
  rw [construct_ok fs p dir t tt rows hman] at hcon
  injection hcon with hs
  subst hs
  constructor
  · exact rfl
  · intro calls
    rw [runCalls_eq_self]
    exact rfl

/-- C3: on a store constructed from a manifest, GetItem at a valid index i
resolves the image path by joining the image directory with the filename of
manifest row i, decodes that file into a raw array, and returns that array as
the feature — with the feature transform applied to it exactly when one was
configured — together with the row's label, transformed likewise. -/
theorem getItem_feature_from_joined_path {Image Label : Type}
    (fs : FS Image Label) (p dir : String)
    (t : Option (Image → Image)) (tt : Option (Label → Label))
    (rows : List (String × Label)) (s : CustomImageDatset Image Label)
    (hman : fs p = some (FileData.manifest rows))
    (hcon : CustomImageDatset.construct fs p dir t tt = Except.ok s)
    (i : Nat) (h : i < rows.length) (img : Image)
    (hread : read_image fs (os_path_join dir (rows[i]).1) = Except.ok img) :
    s.getItem fs (i : Int) = Except.ok
      (applyOpt t img, applyOpt tt ((rows[i]).2)) := by
  rw [construct_ok fs p dir t tt rows hman] at hcon
  injection hcon with hs
  subst hs
  exact getItem_ok_spec ⟨rows, dir, t, tt⟩ fs i h img hread

theorem getItem_label_matches_manifest_witness :
    ((fun q => if q = "m" then some (FileData.manifest [("a", 5)])
        else if q = "d/a" then some (FileData.image 7) else none : FS Nat Nat) "m" =
      some (FileData.manifest [("a", 5)])) ∧
    (CustomImageDatset.construct
        (fun q => if q = "m" then some (FileData.manifest [("a", 5)])
          else if q = "d/a" then some (FileData.image 7) else none) "m" "d"
        none (some (fun n => n + 1)) =
      Except.ok (CustomImageDatset.mk [("a", 5)] "d" none (some (fun n => n + 1)))) ∧
    0 < 1 ∧
    ((CustomImageDatset.mk [("a", 5)] "d" none (some (fun n => n + 1)) :
        CustomImageDatset Nat Nat).getItem
        (fun q => if q = "m" then some (FileData.manifest [("a", 5)])
          else if q = "d/a" then some (FileData.image 7) else none)
        ((0 : Nat) : Int) =
      Except.ok (7, 6)) ∧
    (6 : Nat) = applyOpt (some (fun n => n + 1)) (([("a", (5 : Nat))][0]).2) :=
  ⟨rfl, rfl, Nat.zero_lt_one, by rfl,
   getItem_label_matches_manifest
     (fun q => if q = "m" then some (FileData.manifest [("a", 5)])
       else if q = "d/a" then some (FileData.image 7) else none) "m" "d"
     none (some (fun n => n + 1)) [("a", 5)]
     (CustomImageDatset.mk [("a", 5)] "d" none (some (fun n => n + 1)))
     rfl rfl 0 (by decide) 7 6 (by rfl)⟩

theorem len_eq_manifest_row_count_witness :
    ((fun q => if q = "m" then some (FileData.manifest [("a", 5), ("b", 6)])
        else none : FS Nat Nat) "m" = some (FileData.manifest [("a", 5), ("b", 6)])) ∧
    (CustomImageDatset.construct
        (fun q => if q = "m" then some (FileData.manifest [("a", 5), ("b", 6)])
          else none : FS Nat Nat) "m" "d" none none =
      Except.ok (CustomImageDatset.mk [("a", 5), ("b", 6)] "d" none none)) ∧
    (CustomImageDatset.mk [("a", 5), ("b", 6)] "d" none none :
      CustomImageDatset Nat Nat).len = 2 ∧
    (runCalls
        (CustomImageDatset.mk [("a", 5), ("b", 6)] "d" none none :
          CustomImageDatset Nat Nat)
        [DatasetCall.lengthCall, DatasetCall.getItemCall (fun _ => none) 0]).len = 2 :=
  ⟨rfl, rfl,
   (len_eq_manifest_row_count
      (fun q => if q = "m" then some (FileData.manifest [("a", 5), ("b", 6)])
        else none) "m" "d" none none [("a", 5), ("b", 6)]
      (CustomImageDatset.mk [("a", 5), ("b", 6)] "d" none none) rfl rfl).1,
   (len_eq_manifest_row_count
      (fun q => if q = "m" then some (FileData.manifest [("a", 5), ("b", 6)])
        else none) "m" "d" none none [("a", 5), ("b", 6)]
      (CustomImageDatset.mk [("a", 5), ("b", 6)] "d" none none) rfl rfl).2
     [DatasetCall.lengthCall, DatasetCall.getItemCall (fun _ => none) 0]⟩

theorem getItem_feature_from_joined_path_witness :
    ((fun q => if q = "m" then some (FileData.manifest [("a", 5)])
        else if q = "d/a" then some (FileData.image 7) else none : FS Nat Nat) "m" =
      some (FileData.manifest [("a", 5)])) ∧
    (CustomImageDatset.construct
        (fun q => if q = "m" then some (FileData.manifest [("a", 5)])
          else if q = "d/a" then some (FileData.image 7) else none) "m" "d"
        (some (fun n => n * 2)) none =
      Except.ok (CustomImageDatset.mk [("a", 5)] "d" (some (fun n => n * 2)) none)) ∧
    0 < 1 ∧
    (read_image
        (fun q => if q = "m" then some (FileData.manifest [("a", 5)])
          else if q = "d/a" then some (FileData.image 7) else none : FS Nat Nat)
        (os_path_join "d" "a") = Except.ok 7) ∧
    ((CustomImageDatset.mk [("a", 5)] "d" (some (fun n => n * 2)) none :
        CustomImageDatset Nat Nat).getItem
        (fun q => if q = "m" then some (FileData.manifest [("a", 5)])
          else if q = "d/a" then some (FileData.image 7) else none)
        ((0 : Nat) : Int) =
      Except.ok (14, 5)) :=
  ⟨rfl, rfl, Nat.zero_lt_one, by rfl,
   getItem_feature_from_joined_path
     (fun q => if q = "m" then some (FileData.manifest [("a", 5)])
       else if q = "d/a" then some (FileData.image 7) else none) "m" "d"
     (some (fun n => n * 2)) none [("a", 5)]
     (CustomImageDatset.mk [("a", 5)] "d" (some (fun n => n * 2)) none)
     rfl rfl 0 (by decide) 7 (by rfl)⟩

/-- C5: errors surface at the correct phase: construction succeeds exactly when
the manifest parses, any construction failure is a ManifestReadError, and a
manifest row naming a missing image file does not disturb construction — the
GetItem call for that row fails with SampleNotFoundError instead. -/
theorem error_phase_separation {Image Label : Type} (fs : FS Image Label)
    (p dir : String) (t : Option (Image → Image)) (tt : Option (Label → Label)) :
    ((∃ s, CustomImageDatset.construct fs p dir t tt = Except.ok s) ↔
      ∃ rows, fs p = some (FileData.manifest rows)) ∧
    (∀ e, CustomImageDatset.construct fs p dir t tt = Except.error e →
      e = DatasetError.manifestReadError) ∧
    (∀ (s : CustomImageDatset Image Label) (idx : Int) (f : String) (l : Label),
      CustomImageDatset.construct fs p dir t tt = Except.ok s →
      iloc s.image_labels idx = some (f, l) →
      fs (os_path_join dir f) = none →
      s.getItem fs idx = Except.error DatasetError.sampleNotFoundError) := by
  refine ⟨⟨?_, ?_⟩, ?_, ?_⟩
  · rintro ⟨s, hs⟩
    obtain ⟨rows, hrows, -⟩ := construct_ok_inv hs
    exact ⟨rows, hrows⟩
  · rintro ⟨rows, hrows⟩
    exact ⟨_, construct_ok fs p dir t tt rows hrows⟩
  · intro e he
    unfold CustomImageDatset.construct read_csv at he
    rcases hfs : fs p with _ | d
    · rw [hfs] at he
      injection he with h
      exact h.symm
    · cases d with
      | image img => rw [hfs] at he; injection he with h; exact h.symm
      | manifest rows => rw [hfs] at he; exact Except.noConfusion he
      | malformed => rw [hfs] at he; injection he with h; exact h.symm
  · intro s idx f l hcon hiloc hmiss
    obtain ⟨rows, hrows, hs⟩ := construct_ok_inv hcon
    subst hs
    unfold CustomImageDatset.getItem read_image
    simp only [hiloc, hmiss]

/-- C6: the store is immutable — any sequence of Length and GetItem calls
leaves the object state (manifest rows, image directory, both transforms)
unchanged — and GetItem caches nothing: whatever image data the filesystem
holds at the row's resolved path at call time is what the call decodes and
returns (post-transform), for every call. -/
theorem store_immutable_and_uncached {Image Label : Type}
    (s : CustomImageDatset Image Label) :
    (∀ calls : List (DatasetCall Image Label), runCalls s calls = s) ∧
    (∀ (fs : FS Image Label) (idx : Int) (f : String) (l : Label) (img : Image),
      iloc s.image_labels idx = some (f, l) →
      s.getItem (updateFS fs (os_path_join s.img_dir f) (FileData.image img)) idx =
        Except.ok (applyOpt s.transform img, applyOpt s.target_transform l)) := by
  constructor
  · exact runCalls_eq_self s
  · intro fs idx f l img hiloc
    unfold CustomImageDatset.getItem read_image updateFS
    simp only [hiloc, if_pos rfl]
    rfl

theorem store_immutable_and_uncached_witness :
    iloc ([("a", 3)] : List (String × Nat)) 0 = some ("a", 3) ∧
    runCalls
        (CustomImageDatset.mk [("a", 3)] "d" none (some (fun n => n + 1)) :
          CustomImageDatset Nat Nat)
        [DatasetCall.lengthCall, DatasetCall.getItemCall (fun _ => none) 0] =
      CustomImageDatset.mk [("a", 3)] "d" none (some (fun n => n + 1)) ∧
    (CustomImageDatset.mk [("a", 3)] "d" none (some (fun n => n + 1)) :
        CustomImageDatset Nat Nat).getItem
        (updateFS (fun _ => none) (os_path_join "d" "a") (FileData.image 9)) 0 =
      Except.ok (9, 4) :=
  ⟨rfl,
   (store_immutable_and_uncached
      (CustomImageDatset.mk [("a", 3)] "d" none (some (fun n => n + 1)))).1
     [DatasetCall.lengthCall, DatasetCall.getItemCall (fun _ => none) 0],
   (store_immutable_and_uncached
      (CustomImageDatset.mk [("a", 3)] "d" none (some (fun n => n + 1)))).2
     (fun _ => none) 0 "a" 3 9 rfl⟩

theorem error_phase_separation_witness :
    (CustomImageDatset.construct (fun _ => none : FS Nat Nat) "m" "d" none none =
      Except.error DatasetError.manifestReadError) ∧
    DatasetError.manifestReadError = DatasetError.manifestReadError ∧
    iloc ([("a", 5)] : List (String × Nat)) 0 = some ("a", 5) ∧
    ((fun q => if q = "m" then some (FileData.manifest [("a", 5)]) else none :
        FS Nat Nat) (os_path_join "d" "a") = none) ∧
    ((CustomImageDatset.mk [("a", 5)] "d" none none :
        CustomImageDatset Nat Nat).getItem
        (fun q => if q = "m" then some (FileData.manifest [("a", 5)]) else none) 0 =
      Except.error DatasetError.sampleNotFoundError) :=
  ⟨rfl,
   (error_phase_separation (fun _ => none : FS Nat Nat) "m" "d" none none).2.1
     DatasetError.manifestReadError rfl,
   rfl, rfl,
   (error_phase_separation
      (fun q => if q = "m" then some (FileData.manifest [("a", 5)]) else none)
      "m" "d" none none).2.2
     (CustomImageDatset.mk [("a", 5)] "d" none none) 0 "a" 5 rfl rfl rfl⟩

theorem chunksGo_irrel {α : Type} (b : Nat) (hb : b ≠ 0) :
    ∀ (fuel fuel' : Nat) (l : List α), l.length ≤ fuel → l.length ≤ fuel' →
      chunksGo b fuel l = chunksGo b fuel' l := by
  intro fuel
  induction fuel with
  | zero =>
    intro fuel' l h h'
    cases l with
    | nil => cases fuel' <;> rfl
    | cons x xs => simp at h
  | succ f ih =>
    intro fuel' l h h'
    cases l with
    | nil => cases fuel' <;> rfl
    | cons x xs =>
      cases fuel' with
      | zero => simp at h'
      | succ f' =>
        show (x :: xs).take b :: chunksGo b f ((x :: xs).drop b) =
          (x :: xs).take b :: chunksGo b f' ((x :: xs).drop b)
        congr 1
        apply ih f' ((x :: xs).drop b)
        · simp only [List.length_drop, List.length_cons]
          simp only [List.length_cons] at h
          omega
        · simp only [List.length_drop, List.length_cons]
          simp only [List.length_cons] at h'
          omega

theorem chunks_nil {α : Type} (b : Nat) : chunks b ([] : List α) = [] := rfl

theorem chunks_cons {α : Type} (b : Nat) (hb : b ≠ 0) (x : α) (xs : List α) :
    chunks b (x :: xs) = (x :: xs).take b :: chunks b ((x :: xs).drop b) := by
  have h1 : chunks b (x :: xs) =
      (x :: xs).take b :: chunksGo b xs.length ((x :: xs).drop b) := rfl
  rw [h1]
  congr 1
  exact chunksGo_irrel b hb xs.length ((x :: xs).drop b).length ((x :: xs).drop b)
    (by simp only [List.length_drop, List.length_cons]; omega) (Nat.le_refl _)

theorem ceil_div_step (b m : Nat) (hb : b ≠ 0) (hm : 1 ≤ m) :
    (m - b + b - 1) / b + 1 = (m + b - 1) / b := by
  have hb1 : 0 < b := Nat.pos_of_ne_zero hb
  rcases Nat.le_total m b with h | h
  · have h0 : m - b = 0 := by omega
    have e0 : (0 : Nat) + b - 1 = b - 1 := by omega
    have e1 : m + b - 1 = (m - 1) + b := by omega
    rw [h0, e0, e1, Nat.add_div_right _ hb1,
      Nat.div_eq_of_lt (show b - 1 < b by omega),
      Nat.div_eq_of_lt (show m - 1 < b by omega)]
  · have e3 : m - b + b - 1 = m - 1 := by omega
    have e1 : m + b - 1 = (m - 1) + b := by omega
    rw [e3, e1, Nat.add_div_right _ hb1]

theorem chunks_join {α : Type} (b : Nat) (hb : b ≠ 0) :
    ∀ l : List α, (chunks b l).flatten = l
  | [] => by rw [chunks_nil]; rfl
  | x :: xs => by
    rw [chunks_cons b hb x xs, List.flatten_cons,
      chunks_join b hb ((x :: xs).drop b), List.take_append_drop]
termination_by l => l.length
decreasing_by
  simp only [List.length_drop, List.length_cons]
  omega

theorem chunks_length {α : Type} (b : Nat) (hb : b ≠ 0) :
    ∀ l : List α, (chunks b l).length = (l.length + b - 1) / b
  | [] => by
    rw [chunks_nil]
    simp only [List.length_nil]
    exact (Nat.div_eq_of_lt (by omega)).symm
  | x :: xs => by
    rw [chunks_cons b hb x xs]
    simp only [List.length_cons]
    rw [chunks_length b hb ((x :: xs).drop b)]
    simp only [List.length_drop, List.length_cons]
    exact ceil_div_step b (xs.length + 1) hb (by omega)
termination_by l => l.length
decreasing_by
  simp only [List.length_drop, List.length_cons]
  omega

theorem chunks_dropLast_length {α : Type} (b : Nat) (hb : b ≠ 0) :
    ∀ l : List α, ∀ c ∈ (chunks b l).dropLast, c.length = b
  | [] => by
    rw [chunks_nil]
    intro c hc
    simp at hc
  | x :: xs => by
    rw [chunks_cons b hb x xs]
    rcases hd : (x :: xs).drop b with _ | ⟨y, ys⟩
    · rw [chunks_nil]
      intro c hc
      simp at hc
    · have hne : chunks b (y :: ys) ≠ [] := by
        rw [chunks_cons b hb y ys]
        exact List.cons_ne_nil _ _
      rw [List.dropLast_cons_of_ne_nil hne]
      intro c hc
      rcases List.mem_cons.mp hc with hc1 | hc2
      · subst hc1
        have hlen := congrArg List.length hd
        simp only [List.length_drop, List.length_cons] at hlen
        simp only [List.length_take, List.length_cons]
        omega
      · exact chunks_dropLast_length b hb (y :: ys) c hc2
termination_by l => l.length
decreasing_by
  have hlen := congrArg List.length hd
  simp only [List.length_drop, List.length_cons] at hlen
  simp only [List.length_cons]
  omega

theorem chunks_getLast_length {α : Type} (b : Nat) (hb : b ≠ 0) :
    ∀ l : List α, l ≠ [] →
      ∃ c, (chunks b l).getLast? = some c ∧
        c.length = if l.length % b = 0 then b else l.length % b
  | [], h => absurd rfl h
  | x :: xs, _ => by
    rw [chunks_cons b hb x xs]
    rcases hd : (x :: xs).drop b with _ | ⟨y, ys⟩
    · rw [chunks_nil]
      have hlen := congrArg List.length hd
      simp only [List.length_drop, List.length_cons, List.length_nil] at hlen
      refine ⟨(x :: xs).take b, rfl, ?_⟩
      simp only [List.length_take, List.length_cons]
      rcases Nat.lt_or_ge (xs.length + 1) b with hlt | hge
      · rw [Nat.mod_eq_of_lt hlt, if_neg (by omega)]
        omega
      · have heq : xs.length + 1 = b := by omega
        rw [heq, Nat.mod_self, if_pos rfl]
        omega
    · obtain ⟨c, hc, hclen⟩ :=
        chunks_getLast_length b hb (y :: ys) (List.cons_ne_nil _ _)
      have hcons := chunks_cons b hb y ys
      refine ⟨c, ?_, ?_⟩
      · rw [hcons]
        rw [hcons] at hc
        rw [List.getLast?_cons_cons]
        exact hc
      · rw [hclen]
        have hlen := congrArg List.length hd
        simp only [List.length_drop, List.length_cons] at hlen
        have hble : b ≤ xs.length + 1 := by omega
        have hmod : (xs.length + 1) % b = (ys.length + 1) % b := by
          rw [Nat.mod_eq_sub_mod hble]
          have he : xs.length + 1 - b = ys.length + 1 := by omega
          rw [he]
        simp only [List.length_cons]
        rw [hmod]
termination_by l => l.length
decreasing_by
  have hlen := congrArg List.length hd
  simp only [List.length_drop, List.length_cons] at hlen
  simp only [List.length_cons]
  omega

/-- C7: with shuffle disabled, one full epoch of the Batch Iterator visits the
store's indices 0, 1, ..., Length-1 in ascending order each exactly once: the
concatenation of the epoch's index batches is exactly the ascending range. -/
theorem epoch_no_shuffle_ascending {Image Label : Type}
    (dl : DataLoader Image Label) (perm : List Nat)
    (hsh : dl.shuffle = false) (hb : 0 < dl.batch_size) :
    (dl.epochIndexBatches perm).flatten = List.range dl.dataset.len := by
  unfold DataLoader.epochIndexBatches
  rw [hsh]
  simp only [Bool.false_eq_true, if_false]
  exact chunks_join dl.batch_size (by omega) (List.range dl.dataset.len)

theorem epoch_no_shuffle_ascending_witness :
    (DataLoader.mk
        (CustomImageDatset.mk (List.replicate 10 ("a", 0)) "d" none none :
          CustomImageDatset Nat Nat) 4 false).shuffle = false ∧
    0 < (DataLoader.mk
        (CustomImageDatset.mk (List.replicate 10 ("a", 0)) "d" none none :
          CustomImageDatset Nat Nat) 4 false).batch_size ∧
    ((DataLoader.mk
        (CustomImageDatset.mk (List.replicate 10 ("a", 0)) "d" none none :
          CustomImageDatset Nat Nat) 4 false).epochIndexBatches []).flatten =
      List.range 10 :=
  ⟨rfl, by decide,
   epoch_no_shuffle_ascending
     (DataLoader.mk
       (CustomImageDatset.mk (List.replicate 10 ("a", 0)) "d" none none) 4 false)
     [] rfl (by decide)⟩

/-- C8: one epoch of the Batch Iterator — whether or not shuffle is enabled,
the epoch's index order being the ascending range or, per the spec, a
permutation of it — yields exactly ceil(Length/batchSize) batches; every batch
before the last has exactly batchSize indices; the last batch has Length mod
batchSize indices when batchSize does not divide Length and batchSize indices
otherwise; and on a 10-row store with batch size 4 and shuffle disabled the
epoch is [[0,1,2,3],[4,5,6,7],[8,9]], covering indices 0 through 9 in order. -/
theorem epoch_batch_sizes {Image Label : Type}
    (dl : DataLoader Image Label) (perm : List Nat)
    (hperm : dl.shuffle = true → perm.Perm (List.range dl.dataset.len))
    (hb : 0 < dl.batch_size) :
    (dl.epochIndexBatches perm).length =
      (dl.dataset.len + dl.batch_size - 1) / dl.batch_size ∧
    (∀ c ∈ (dl.epochIndexBatches perm).dropLast, c.length = dl.batch_size) ∧
    (0 < dl.dataset.len →
      ∃ c, (dl.epochIndexBatches perm).getLast? = some c ∧
        c.length = if dl.dataset.len % dl.batch_size = 0 then dl.batch_size
          else dl.dataset.len % dl.batch_size) ∧
    (DataLoader.mk
        (CustomImageDatset.mk (List.replicate 10 ("a", 0)) "d" none none :
          CustomImageDatset Nat Nat) 4 false).epochIndexBatches [] =
      [[0, 1, 2, 3], [4, 5, 6, 7], [8, 9]] := by
  have hb' : dl.batch_size ≠ 0 := by omega
  have hlen : (if dl.shuffle then perm else List.range dl.dataset.len).length =
      dl.dataset.len := by
    cases h : dl.shuffle with
    | false => simp [List.length_range]
    | true =>
      simp only [if_true]
      exact ((hperm h).length_eq).trans (List.length_range _)
  have hepoch : dl.epochIndexBatches perm =
      chunks dl.batch_size (if dl.shuffle then perm else List.range dl.dataset.len) :=
    rfl
  refine ⟨?_, ?_, ?_, by decide⟩
  · rw [hepoch, chunks_length dl.batch_size hb'
      (if dl.shuffle then perm else List.range dl.dataset.len), hlen]
  · intro c hc
    rw [hepoch] at hc
    exact chunks_dropLast_length dl.batch_size hb'
      (if dl.shuffle then perm else List.range dl.dataset.len) c hc
  · intro hn
    rw [hepoch]
    obtain ⟨c, hc, hclen⟩ := chunks_getLast_length dl.batch_size hb'
      (if dl.shuffle then perm else List.range dl.dataset.len)
      (by
        intro he
        rw [he] at hlen
        simp only [List.length_nil] at hlen
        omega)
    rw [hlen] at hclen
    exact ⟨c, hc, hclen⟩

theorem epoch_batch_sizes_witness :
    ((List.range 10).reverse.Perm (List.range 10)) ∧
    0 < (DataLoader.mk
        (CustomImageDatset.mk (List.replicate 10 ("a", 0)) "d" none none :
          CustomImageDatset Nat Nat) 4 true).batch_size ∧
    ((DataLoader.mk
        (CustomImageDatset.mk (List.replicate 10 ("a", 0)) "d" none none :
          CustomImageDatset Nat Nat) 4 true).epochIndexBatches
        (List.range 10).reverse).length = 3 :=
  ⟨List.reverse_perm (List.range 10), by decide,
   (epoch_batch_sizes
      (DataLoader.mk
        (CustomImageDatset.mk (List.replicate 10 ("a", 0)) "d" none none) 4 true)
      (List.range 10).reverse (fun _ => List.reverse_perm (List.range 10))
      (by decide)).1⟩

/-- C9: the notebook's one-hot target transform sends each label y with
0 ≤ y < 10 to a ten-entry vector holding one at position y and zero at every
other position. -/
theorem one_hot_target_transform_spec :
    ∀ y : Nat, y < 10 →
      (target_transform y).length = 10 ∧
      (target_transform y)[y]? = some 1 ∧
      ∀ i : Nat, i < 10 → i ≠ y → (target_transform y)[i]? = some 0 := by
  decide

theorem one_hot_target_transform_spec_witness :
    3 < 10 ∧
    (target_transform 3).length = 10 ∧
    (target_transform 3)[3]? = some 1 ∧
    (target_transform 3)[5]? = some 0 :=
  ⟨by decide,
   (one_hot_target_transform_spec 3 (by decide)).1,
   (one_hot_target_transform_spec 3 (by decide)).2.1,
   (one_hot_target_transform_spec 3 (by decide)).2.2 5 (by decide) (by decide)⟩
